import Mathlib

/-!
# CrowdEase backend — seat inventory and booking subsystem

A shallow embedding of the seat-generation and seat-booking logic of
`src/server.js` (routes `POST /api/events`, `PUT /api/events/:eventId/book-seats`,
`POST /api/bookings`, `PUT /api/events/:eventId/seats/:seatId`), together with
theorems settling the specification claims about it.

Conventions of the embedding:
* a Mongo document array field is a Lean `List`;
* a JS value that may be `null`/`undefined` is an `Option`;
* a route handler is a pure function from the loaded event document (the result
  of `Event.findById`), the loaded venue document (the result of
  `Venue.findOne`), and the request data, to the HTTP outcome paired with the
  event layout as it stands after the request (`none` when there is no event).
-/

namespace Crowdease

/-- One entry of `eventSchema.seatingLayout` (`src/server.js`):
`{ id, row, column, type, occupied, attendee }`. -/
structure Seat where
  id : String
  row : Nat
  column : Nat
  type : String
  occupied : Bool
  attendee : Option String
  deriving Repr, DecidableEq

/-- An event's `seatingLayout` array. -/
abbrev Layout := List Seat

/-! ## Seat-id rendering

The generator builds ids with a JS template literal
`` `${sectionName}-${rowLabel}${s}` `` where `rowLabel = String.fromCharCode(64 + rowNum)`
and `${s}` interpolates the seat number in decimal.  `decChars` renders a natural
number as its decimal digit characters, exactly as JS number interpolation does;
it is written with an explicit fuel argument so that it is structurally
recursive and evaluates in the kernel. -/

/-- The character for a single decimal digit, code `48 + d` (`'0'`–`'9'`). -/
def digitChar (d : Nat) : Char := Char.ofNat (48 + d)

/-- Decimal rendering with fuel; `fuel` bounds the recursion depth. -/
def decCharsCore : Nat → Nat → List Char
  | 0, _ => []
  | fuel + 1, n =>
    if n < 10 then [digitChar n]
    else decCharsCore fuel (n / 10) ++ [digitChar (n % 10)]

/-- The decimal digit characters of `n`, most significant first
(the JS rendering of `${n}` for a natural number). -/
def decChars (n : Nat) : List Char := decCharsCore (n + 1) n

/-- `sectionName.toLowerCase()`: lowercase every character. -/
def jsToLowerCase (s : String) : String := String.mk (s.data.map Char.toLower)

/-- `String.fromCharCode(64 + rowNum)`: `1 ↦ 'A'`, `2 ↦ 'B'`, … -/
def rowLabelChar (rowNum : Nat) : Char := Char.ofNat (64 + rowNum)

/-- The seat id `` `${sectionName}-${rowLabel}${s}` `` built by `generateSeats`. -/
def seatId (sectionName : String) (rowNum s : Nat) : String :=
  sectionName ++ "-" ++ String.mk [rowLabelChar rowNum] ++ String.mk (decChars s)

/-- `generateSeats(sectionName, rows, seatsPerRow)` of `src/server.js`
(lines 154–171): for `r = 0 .. rows-1` with `rowNum = r + 1`, and
`s = 1 .. seatsPerRow`, emit a seat with the section-prefixed id, the given row
and column, `type` the lowercased section name, `occupied: false`,
`attendee: null`. -/
def generateSeats (sectionName : String) (rows seatsPerRow : Nat) : Layout :=
  (List.range rows).flatMap (fun r =>
    let rowNum := r + 1
    (List.range seatsPerRow).map (fun s0 =>
      let s := s0 + 1
      { id := seatId sectionName rowNum s
        row := rowNum
        column := s
        type := jsToLowerCase sectionName
        occupied := false
        attendee := none }))

/-- One element of the `seatSections` array posted to `POST /api/events`. -/
structure SectionSpec where
  sectionName : String
  rows : Nat
  seatsPerRow : Nat
  deriving Repr, DecidableEq

/-- The seating-layout construction in `POST /api/events` (lines 209–219):
`seatSections.forEach(section => seatingLayout = seatingLayout.concat(generateSeats(...)))`.
No collision check of any kind is performed on the result. -/
def buildSeatingLayout (sections : List SectionSpec) : Layout :=
  sections.foldl
    (fun acc sec => acc ++ generateSeats sec.sectionName sec.rows sec.seatsPerRow) []

/-! ## Venue documents and the venue lookup -/

/-- A stored venue document, with exactly the fields `venueSchema` declares
(`src/server.js` lines 48–56); the schema defines **no** `eventId` path. -/
structure Venue where
  venueName : String
  maxCapacity : Nat
  seatingType : String
  seatingLayoutStr : String
  image : String
  deriving Repr, DecidableEq

/-- Field access on a stored venue document by path name: the paths the schema
declares resolve to their value; any other path (in particular `"eventId"`) is
absent from every document. -/
def Venue.getField (v : Venue) (field : String) : Option String :=
  if field = "venueName" then some v.venueName
  else if field = "maxCapacity" then some (String.mk (decChars v.maxCapacity))
  else if field = "seatingType" then some v.seatingType
  else if field = "seatingLayout" then some v.seatingLayoutStr
  else if field = "image" then some v.image
  else none

/-- `Venue.findOne({ field: value })` under match-nothing semantics for a field
the schema does not define: a document matches iff it carries `field` with the
requested value. -/
def venueFindOne (venues : List Venue) (field value : String) : Option Venue :=
  venues.find? (fun v => v.getField field = some value)

/-! ## The booking routes -/

/-- The outcome of a booking route, abstracting the HTTP responses:
404 "Event not found", 404 "Venue not found",
400 "You can only book up to 6 seats per event.",
400 "Some seats are already booked: …" (carrying the offending ids),
200 success (carrying `bookedSeats`). -/
inductive BookResult where
  | eventNotFound
  | venueNotFound
  | capacityExceeded
  | conflict (offending : List String)
  | success (bookedSeats : List String)
  deriving Repr, DecidableEq

/-- Whether a route outcome is the 200 success response. -/
def isSuccess : BookResult → Bool
  | .success _ => true
  | _ => false

/-- `event.seatingLayout.filter(seat => seat.attendee?.toString() === req.user.id)`
(lines 445–447): the seats whose `attendee` reference is set to the given user. -/
def seatsBookedByUser (layout : Layout) (uid : String) : Layout :=
  layout.filter (fun seat => seat.attendee = some uid)

/-- `seatIds.filter(seatId => event.seatingLayout.find(seat => seat.id === seatId && seat.occupied))`
(lines 453–455): the requested ids for which some seat with that id is occupied. -/
def alreadyBookedSeats (layout : Layout) (seatIds : List String) : List String :=
  seatIds.filter (fun sid =>
    (layout.find? (fun seat => seat.id = sid && seat.occupied)).isSome)

/-- One iteration of the commit loop (lines 462–468): find the first seat with
the given id and, if it exists and is not occupied, mark it occupied by `uid`. -/
def bookOne (uid sid : String) : Layout → Layout
  | [] => []
  | seat :: rest =>
    if seat.id = sid then
      (if seat.occupied then seat
       else { seat with occupied := true, attendee := some uid }) :: rest
    else seat :: bookOne uid sid rest

/-- The whole commit loop `seatIds.forEach(...)` of `PUT .../book-seats`. -/
def commitSeats (uid : String) (seatIds : List String) (layout : Layout) : Layout :=
  seatIds.foldl (fun ly sid => bookOne uid sid ly) layout

/-- The handler of `PUT /api/events/:eventId/book-seats` (lines 434–481), given
the loaded event layout and the loaded venue.  Checks run in source order:
event found, venue found, per-user seat cap, occupied-seat conflict; only then
does the commit loop run and the document get saved. -/
def putBookSeats (eventOpt : Option Layout) (venueOpt : Option Venue)
    (uid : String) (seatIds : List String) : BookResult × Option Layout :=
  match eventOpt with
  | none => (.eventNotFound, none)
  | some layout =>
    match venueOpt with
    | none => (.venueNotFound, some layout)
    | some _ =>
      if 6 < (seatsBookedByUser layout uid).length + seatIds.length then
        (.capacityExceeded, some layout)
      else
        let ab := alreadyBookedSeats layout seatIds
        if 0 < ab.length then (.conflict ab, some layout)
        else (.success seatIds, some (commitSeats uid seatIds layout))

/-- `PUT /api/events/:eventId/book-seats` end to end: the venue is looked up by
`Venue.findOne({ eventId })` (line 442) even though `venueSchema` declares no
`eventId` path. -/
def putBookSeatsRoute (eventOpt : Option Layout) (venues : List Venue)
    (eventId uid : String) (seatIds : List String) : BookResult × Option Layout :=
  putBookSeats eventOpt (venueFindOne venues "eventId" eventId) uid seatIds

/-- The handler of `POST /api/bookings` (lines 487–531), given the loaded event
layout and venue.  `attendeeId` comes from the request body; there is no
capacity check; the commit maps over the layout setting
`occupied: true, attendee: attendeeId` on every seat whose id is in `seatIds`. -/
def postBookings (eventOpt : Option Layout) (venueOpt : Option Venue)
    (attendeeId : Option String) (seatIds : List String) : BookResult × Option Layout :=
  match eventOpt with
  | none => (.eventNotFound, none)
  | some layout =>
    match venueOpt with
    | none => (.venueNotFound, some layout)
    | some _ =>
      let ab := alreadyBookedSeats layout seatIds
      if 0 < ab.length then (.conflict ab, some layout)
      else
        (.success seatIds,
         some (layout.map (fun seat =>
           if seatIds.contains seat.id then
             { seat with occupied := true, attendee := attendeeId }
           else seat)))

/-- `POST /api/bookings` end to end, with its `Venue.findOne({ eventId })`
lookup (line 494). -/
def postBookingsRoute (eventOpt : Option Layout) (venues : List Venue)
    (eventId : String) (attendeeId : Option String) (seatIds : List String) :
    BookResult × Option Layout :=
  postBookings eventOpt (venueFindOne venues "eventId" eventId) attendeeId seatIds

/-! ## The explicit seat-status override -/

/-- JS truthiness of an optional string body field (`undefined` and `""` are
falsy). -/
def jsTruthyStr : Option String → Bool
  | none => false
  | some s => !(s = "")

/-- Outcome of `PUT /api/events/:eventId/seats/:seatId`. -/
inductive UpdateResult where
  | eventNotFound
  | seatNotFound
  | updated
  deriving Repr, DecidableEq

/-- Replace the first element satisfying `p` by its image under `f`. -/
def updateFirst (p : Seat → Bool) (f : Seat → Seat) : Layout → Layout
  | [] => []
  | seat :: rest =>
    if p seat then f seat :: rest else seat :: updateFirst p f rest

/-- The two assignments of the override handler (lines 344–345):
`seat.occupied = occupied || seat.occupied` and
`seat.attendee = attendeeId || seat.attendee`, with JS truthiness
(`false`/`undefined` keep the old `occupied`; `undefined`/`""` keep the old
`attendee`). -/
def overrideSeat (occupied : Option Bool) (attendeeId : Option String)
    (seat : Seat) : Seat :=
  { seat with
    occupied := if occupied = some true then true else seat.occupied
    attendee := if jsTruthyStr attendeeId then attendeeId else seat.attendee }

/-- The handler of `PUT /api/events/:eventId/seats/:seatId` (lines 333–352):
find the seat by id, apply the two assignments, save. -/
def updateSeatStatus (eventOpt : Option Layout) (seatId : String)
    (occupied : Option Bool) (attendeeId : Option String) :
    UpdateResult × Option Layout :=
  match eventOpt with
  | none => (.eventNotFound, none)
  | some layout =>
    if (layout.find? (fun seat => seat.id = seatId)).isSome then
      (.updated,
       some (updateFirst (fun seat => seat.id = seatId)
         (overrideSeat occupied attendeeId) layout))
    else (.seatNotFound, some layout)

/-! ## The structural seat invariant -/

/-- The spec's structural invariant on one event's layout: seat ids are unique
and `occupied == true ⇔ attendee is set`. -/
def seatInvariant (layout : Layout) : Prop :=
  (layout.map Seat.id).Nodup ∧
  ∀ seat ∈ layout, seat.occupied = true ↔ seat.attendee.isSome

instance (layout : Layout) : Decidable (seatInvariant layout) := by
  unfold seatInvariant; infer_instance

/-! ## Concurrent execution of the booking handler

The handler runs `Event.findById` (a read), validates against the snapshot it
read, mutates its in-memory copy, and runs `event.save()` (a write of that
copy).  Nothing serializes the read–validate–write sequence, so two requests
may both read before either writes.  `runBothFromSnapshot` executes that
interleaving for two `PUT book-seats` requests: both handlers load the same
stored layout, then the first saves, then the second saves (a save overwrites
the stored document with the handler's copy; failed requests do not save). -/
def runBothFromSnapshot (layout : Layout) (v : Venue)
    (u1 : String) (ids1 : List String) (u2 : String) (ids2 : List String) :
    BookResult × BookResult × Layout :=
  let r1 := putBookSeats (some layout) (some v) u1 ids1
  let r2 := putBookSeats (some layout) (some v) u2 ids2
  let afterFirstSave := if isSuccess r1.fst then r1.snd.getD layout else layout
  let finalState := if isSuccess r2.fst then r2.snd.getD layout else afterFirstSave
  (r1.fst, r2.fst, finalState)

/-- How one seat may change across a commit of `ids`: its id is stable, its
occupancy can only go from free to occupied, and a seat whose id was not
requested is untouched. -/
def seatEvolves (ids : List String) (a b : Seat) : Prop :=
  b.id = a.id ∧ (a.occupied = true → b.occupied = true) ∧ (a.id ∉ ids → b = a)

/-! ## Concrete fixtures used by the claim theorems -/

/-- A seat of section type `"gold"` with the given id, position and state. -/
def mkSeat (id : String) (row column : Nat) (occupied : Bool)
    (attendee : Option String) : Seat :=
  { id := id, row := row, column := column, type := "gold"
    occupied := occupied, attendee := attendee }

/-- A stored venue document. -/
def demoVenue : Venue :=
  { venueName := "Main Hall", maxCapacity := 100, seatingType := "seatSelection"
    seatingLayoutStr := "[]", image := "v.png" }

/-- Three seats `S1,S2,S3` of which only `S2` is occupied (by `"w"`). -/
def conflictDemoLayout : Layout :=
  [mkSeat "S1" 1 1 false none, mkSeat "S2" 1 2 true (some "w"),
   mkSeat "S3" 1 3 false none]

/-- Six seats occupied by `"u"` plus a free seat `T7`. -/
def capDemoLayout : Layout :=
  [mkSeat "T1" 1 1 true (some "u"), mkSeat "T2" 1 2 true (some "u"),
   mkSeat "T3" 1 3 true (some "u"), mkSeat "T4" 1 4 true (some "u"),
   mkSeat "T5" 1 5 true (some "u"), mkSeat "T6" 1 6 true (some "u"),
   mkSeat "T7" 1 7 false none]

/-- Five seats occupied by `"u"` plus a free seat `U6`. -/
def fiveHeldLayout : Layout :=
  [mkSeat "U1" 1 1 true (some "u"), mkSeat "U2" 1 2 true (some "u"),
   mkSeat "U3" 1 3 true (some "u"), mkSeat "U4" 1 4 true (some "u"),
   mkSeat "U5" 1 5 true (some "u"), mkSeat "U6" 1 6 false none]

/-- Four free seats `R1`–`R4`. -/
def fourFreeLayout : Layout :=
  [mkSeat "R1" 1 1 false none, mkSeat "R2" 1 2 false none,
   mkSeat "R3" 1 3 false none, mkSeat "R4" 1 4 false none]

/-! ## Helper lemmas about the commit loop -/

theorem seatEvolves_refl (ids : List String) (a : Seat) : seatEvolves ids a a :=
  ⟨rfl, fun h => h, fun _ => rfl⟩

theorem forall₂_compose {R S T : Seat → Seat → Prop}
    (h : ∀ a b c, R a b → S b c → T a c) :
    ∀ {l₁ l₂ l₃ : Layout}, List.Forall₂ R l₁ l₂ → List.Forall₂ S l₂ l₃ →
      List.Forall₂ T l₁ l₃ := by
  intro l₁ l₂ l₃ h₁ h₂
  induction h₁ generalizing l₃ with
  | nil => cases h₂; exact .nil
  | cons hab _ ih => cases h₂ with
    | cons hbc htail => exact .cons (h _ _ _ hab hbc) (ih htail)

theorem forall₂_self {R : Seat → Seat → Prop} (h : ∀ a, R a a) :
    ∀ l : Layout, List.Forall₂ R l l
  | [] => .nil
  | _ :: rest => .cons (h _) (forall₂_self h rest)

theorem forall₂_mem_left {R : Seat → Seat → Prop} {l₁ l₂ : Layout}
    (h : List.Forall₂ R l₁ l₂) {a : Seat} (ha : a ∈ l₁) : ∃ b ∈ l₂, R a b := by
  induction h with
  | nil => cases ha
  | cons hab _ ih =>
    rcases List.mem_cons.mp ha with rfl | hmem
    · exact ⟨_, List.mem_cons_self .., hab⟩
    · obtain ⟨b, hb, hr⟩ := ih hmem
      exact ⟨b, List.mem_cons_of_mem _ hb, hr⟩

theorem bookOne_forall₂ (uid sid : String) :
    ∀ ly : Layout, List.Forall₂ (seatEvolves [sid]) ly (bookOne uid sid ly) := by
  intro ly
  induction ly with
  | nil => exact .nil
  | cons seat rest ih =>
    simp only [bookOne]
    by_cases hid : seat.id = sid
    · rw [if_pos hid]
      refine List.Forall₂.cons ?_ (forall₂_self (seatEvolves_refl _) rest)
      by_cases hocc : seat.occupied = true
      · rw [if_pos hocc]; exact seatEvolves_refl _ _
      · rw [if_neg hocc]
        exact ⟨rfl, fun _ => rfl, fun habs => absurd (by simp [hid]) habs⟩
    · rw [if_neg hid]
      exact List.Forall₂.cons (seatEvolves_refl _ _) ih

theorem seatEvolves_mono {ids₁ ids₂ : List String} (h : ∀ x ∈ ids₁, x ∈ ids₂)
    {a b : Seat} : seatEvolves ids₁ a b → seatEvolves ids₂ a b :=
  fun ⟨hid, hocc, huntouched⟩ =>
    ⟨hid, hocc, fun hnot => huntouched (fun hmem => hnot (h _ hmem))⟩

theorem commitSeats_forall₂ (uid : String) (ids : List String) :
    ∀ ly : Layout, List.Forall₂ (seatEvolves ids) ly (commitSeats uid ids ly) := by
  induction ids with
  | nil => exact fun ly => forall₂_self (seatEvolves_refl _) ly
  | cons sid rest ih =>
    intro ly
    have hstep : List.Forall₂ (seatEvolves [sid]) ly (bookOne uid sid ly) :=
      bookOne_forall₂ uid sid ly
    have hrest : List.Forall₂ (seatEvolves rest)
        (bookOne uid sid ly) (commitSeats uid rest (bookOne uid sid ly)) :=
      ih (bookOne uid sid ly)
    have hcomp : List.Forall₂ (seatEvolves (sid :: rest)) ly
        (commitSeats uid rest (bookOne uid sid ly)) := by
      refine forall₂_compose ?_ hstep hrest
      rintro a b c ⟨hid₁, hocc₁, hun₁⟩ ⟨hid₂, hocc₂, hun₂⟩
      refine ⟨hid₂.trans hid₁, fun h => hocc₂ (hocc₁ h), fun hnot => ?_⟩
      have hne : a.id ≠ sid := fun h => hnot (h ▸ List.mem_cons_self _ _)
      have hba : b = a := hun₁ (by simpa using hne)
      have hca : c = b := hun₂ (fun hm =>
        hnot (List.mem_cons_of_mem _ (by rwa [hid₁] at hm)))
      exact hca.trans hba
    simpa [commitSeats, List.foldl_cons] using hcomp

theorem forall₂_map_id {R : Seat → Seat → Prop} (hR : ∀ a b, R a b → b.id = a.id) :
    ∀ {l₁ l₂ : Layout}, List.Forall₂ R l₁ l₂ → l₂.map Seat.id = l₁.map Seat.id := by
  intro l₁ l₂ h
  induction h with
  | nil => rfl
  | cons hab _ ih => simp only [List.map_cons, ih, hR _ _ hab]

theorem commitSeats_map_id (uid : String) (ids : List String) (ly : Layout) :
    (commitSeats uid ids ly).map Seat.id = ly.map Seat.id :=
  forall₂_map_id (fun _ _ hab => hab.1) (commitSeats_forall₂ uid ids ly)

theorem bookOne_sets_occupied (uid sid : String) :
    ∀ ly : Layout, (∃ s ∈ ly, s.id = sid) →
      ∃ s ∈ bookOne uid sid ly, s.id = sid ∧ s.occupied = true := by
  intro ly
  induction ly with
  | nil => rintro ⟨s, hs, -⟩; cases hs
  | cons seat rest ih =>
    intro hex
    by_cases hid : seat.id = sid
    · by_cases hocc : seat.occupied
      · exact ⟨seat, by simp [bookOne, hid, hocc], hid, hocc⟩
      · refine ⟨{ seat with occupied := true, attendee := some uid }, ?_, hid, rfl⟩
        simp [bookOne, hid, hocc]
    · obtain ⟨s, hs, hsid⟩ := hex
      have hs' : s ∈ rest := by
        rcases List.mem_cons.mp hs with rfl | h
        · exact absurd hsid hid
        · exact h
      obtain ⟨t, ht, hprop⟩ := ih ⟨s, hs', hsid⟩
      exact ⟨t, by simp [bookOne, hid, ht], hprop⟩

theorem commitSeats_occupied (uid : String) (ids : List String) (sid : String)
    (hmem : sid ∈ ids) :
    ∀ ly : Layout, (∃ s ∈ ly, s.id = sid) →
      ∃ s ∈ commitSeats uid ids ly, s.id = sid ∧ s.occupied = true := by
  induction ids with
  | nil => cases hmem
  | cons sid' rest ih =>
    intro ly hex
    rcases List.mem_cons.mp hmem with rfl | hmem'
    · obtain ⟨s, hs, hsid, hsocc⟩ := bookOne_sets_occupied uid sid ly hex
      obtain ⟨t, ht, hid, hocc, -⟩ :=
        forall₂_mem_left (commitSeats_forall₂ uid rest (bookOne uid sid ly)) hs
      exact ⟨t, by simpa [commitSeats, List.foldl_cons] using ht,
        hid.trans hsid, hocc hsocc⟩
    · obtain ⟨s, hs, hsid⟩ := hex
      obtain ⟨b, hb, hbid, -, -⟩ := forall₂_mem_left (bookOne_forall₂ uid sid' ly) hs
      have := ih hmem' (bookOne uid sid' ly) ⟨b, hb, hbid.trans hsid⟩
      simpa [commitSeats, List.foldl_cons] using this

theorem mem_bookOne (uid sid : String) :
    ∀ {ly : Layout} {s : Seat}, s ∈ bookOne uid sid ly →
      s ∈ ly ∨ ∃ t ∈ ly, s = { t with occupied := true, attendee := some uid } := by
  intro ly
  induction ly with
  | nil => intro s hs; cases hs
  | cons seat rest ih =>
    intro s hs
    simp only [bookOne] at hs
    by_cases hid : seat.id = sid
    · rw [if_pos hid] at hs
      by_cases hocc : seat.occupied = true
      · rw [if_pos hocc] at hs
        rcases List.mem_cons.mp hs with rfl | h
        · exact .inl (List.mem_cons_self _ _)
        · exact .inl (List.mem_cons_of_mem _ h)
      · rw [if_neg hocc] at hs
        rcases List.mem_cons.mp hs with rfl | h
        · exact .inr ⟨seat, List.mem_cons_self _ _, rfl⟩
        · exact .inl (List.mem_cons_of_mem _ h)
    · rw [if_neg hid] at hs
      rcases List.mem_cons.mp hs with rfl | h
      · exact .inl (List.mem_cons_self _ _)
      · rcases ih h with h' | ⟨t, ht, rfl⟩
        · exact .inl (List.mem_cons_of_mem _ h')
        · exact .inr ⟨t, List.mem_cons_of_mem _ ht, rfl⟩

theorem mem_commitSeats (uid : String) (ids : List String) :
    ∀ {ly : Layout} {s : Seat}, s ∈ commitSeats uid ids ly →
      s ∈ ly ∨ ∃ t ∈ ly, s = { t with occupied := true, attendee := some uid } := by
  induction ids with
  | nil => intro ly s hs; exact .inl hs
  | cons sid rest ih =>
    intro ly s hs
    have hs' : s ∈ commitSeats uid rest (bookOne uid sid ly) := by
      simpa [commitSeats, List.foldl_cons] using hs
    rcases ih hs' with h | ⟨t, ht, rfl⟩
    · rcases mem_bookOne uid sid h with h' | ⟨t, ht, rfl⟩
      · exact .inl h'
      · exact .inr ⟨t, ht, rfl⟩
    · rcases mem_bookOne uid sid ht with h' | ⟨t', ht', rfl⟩
      · exact .inr ⟨t, h', rfl⟩
      · exact .inr ⟨t', ht', by simp⟩

theorem alreadyBookedSeats_eq_nil {layout : Layout} {seatIds : List String}
    (hfree : ∀ sid ∈ seatIds, ∀ seat ∈ layout, seat.id = sid → seat.occupied = false) :
    alreadyBookedSeats layout seatIds = [] := by
  apply List.filter_eq_nil_iff.mpr
  intro sid hsid
  have hfind : layout.find? (fun seat => seat.id = sid && seat.occupied) = none := by
    apply List.find?_eq_none.mpr
    intro seat hseat h
    rw [Bool.and_eq_true, decide_eq_true_eq] at h
    have h2 := hfree sid hsid seat hseat h.1
    rw [h.2] at h2
    exact absurd h2 (by decide)
  simp [hfind]

theorem updateFirst_map_id (p : Seat → Bool) (f : Seat → Seat)
    (hf : ∀ s, (f s).id = s.id) :
    ∀ ly : Layout, (updateFirst p f ly).map Seat.id = ly.map Seat.id := by
  intro ly
  induction ly with
  | nil => rfl
  | cons seat rest ih =>
    simp only [updateFirst]
    by_cases hp : p seat = true
    · rw [if_pos hp]; simp [hf seat]
    · rw [if_neg hp]; simp [ih]

/-! ## The claims -/

/-- **C1** (code bug): the booking handler is a read–validate–write sequence with
no serialization, so in the interleaving where two contending `bookSeats`
requests both load the event before either saves, **both** requests are told
`success` for the same single free seat `S1` — the claim says exactly one
succeeds and the other gets `Conflict`.  The final stored layout credits the
seat to the last writer `"u2"` while `"u1"` also received a success response. -/
theorem C1_code_bug_eval :
    runBothFromSnapshot [mkSeat "S1" 1 1 false none] demoVenue
        "u1" ["S1"] "u2" ["S1"] =
      (.success ["S1"], .success ["S1"], [mkSeat "S1" 1 1 true (some "u2")]) ∧
    ("u1" : String) ≠ "u2" := by decide

/-- **C2** (confirmed): on both booking endpoints, every rejected request leaves
the stored layout exactly as it was (all checks run before any mutation), and
in the concrete scenario — booking `{S1,S2,S3}` where only `S2` is occupied —
the request is rejected with the conflict error naming exactly `["S2"]`, the
layout is unchanged, and `S1`, `S3` are still free with no attendee. -/
theorem C2_all_or_nothing :
    (∀ (eventOpt : Option Layout) (venueOpt : Option Venue) (uid : String)
        (seatIds : List String),
        isSuccess (putBookSeats eventOpt venueOpt uid seatIds).fst = false →
        (putBookSeats eventOpt venueOpt uid seatIds).snd = eventOpt) ∧
    (∀ (eventOpt : Option Layout) (venueOpt : Option Venue)
        (attendeeId : Option String) (seatIds : List String),
        isSuccess (postBookings eventOpt venueOpt attendeeId seatIds).fst = false →
        (postBookings eventOpt venueOpt attendeeId seatIds).snd = eventOpt) ∧
    putBookSeats (some conflictDemoLayout) (some demoVenue) "u" ["S1", "S2", "S3"] =
      (.conflict ["S2"], some conflictDemoLayout) ∧
    ∀ seat ∈ conflictDemoLayout, seat.id ≠ "S2" →
      seat.occupied = false ∧ seat.attendee = none := by
  refine ⟨?_, ?_, by decide, by decide⟩
  · intro eventOpt venueOpt uid seatIds h
    cases eventOpt with
    | none => rfl
    | some layout =>
      cases venueOpt with
      | none => rfl
      | some v =>
        simp only [putBookSeats] at h ⊢
        split_ifs at h ⊢ <;> simp_all [isSuccess]
  · intro eventOpt venueOpt attendeeId seatIds h
    cases eventOpt with
    | none => rfl
    | some layout =>
      cases venueOpt with
      | none => rfl
      | some v =>
        simp only [postBookings] at h ⊢
        split_ifs at h ⊢ <;> simp_all [isSuccess]

theorem C2_witness :
    (putBookSeats (some conflictDemoLayout) (some demoVenue) "u" ["S2"]).snd =
      some conflictDemoLayout :=
  C2_all_or_nothing.1 (some conflictDemoLayout) (some demoVenue) "u" ["S2"]
    (by decide)

/-- **C3** (code bug): `POST /api/bookings` records on the booked seats the
`attendeeId` taken from the untrusted request body, not the authenticated
identity: two requests identical except for the body `attendeeId` field yield
different recorded attendees, contradicting the claim that the recorded
identity always comes from the Auth collaborator. -/
theorem C3_code_bug_eval :
    postBookings (some [mkSeat "S1" 1 1 false none]) (some demoVenue)
        (some "alice") ["S1"] =
      (.success ["S1"], some [mkSeat "S1" 1 1 true (some "alice")]) ∧
    postBookings (some [mkSeat "S1" 1 1 false none]) (some demoVenue)
        (some "mallory") ["S1"] =
      (.success ["S1"], some [mkSeat "S1" 1 1 true (some "mallory")]) ∧
    ("alice" : String) ≠ "mallory" := by decide

/-- **C9** counterexample: the generator prefixes ids with the section name, so
the single section `{name:"Gold", rows:2, seatsPerRow:3}` does **not** produce
the ids `A1,A2,A3,B1,B2,B3` the claim states. -/
theorem C9_counterexample :
    ¬ ((generateSeats "Gold" 2 3).map Seat.id =
        ["A1", "A2", "A3", "B1", "B2", "B3"]) := by decide

/-- **C9** (amended): the section `{name:"Gold", rows:2, seatsPerRow:3}` yields
exactly 6 seats, in order, with section-prefixed ids
`Gold-A1,…,Gold-B3`, rows `1,1,1,2,2,2`, columns `1,2,3,1,2,3`, section type
`"gold"`, and `occupied = false`, `attendee` unset on every seat. -/
theorem C9_amended :
    generateSeats "Gold" 2 3 =
      [mkSeat "Gold-A1" 1 1 false none, mkSeat "Gold-A2" 1 2 false none,
       mkSeat "Gold-A3" 1 3 false none, mkSeat "Gold-B1" 2 1 false none,
       mkSeat "Gold-B2" 2 2 false none, mkSeat "Gold-B3" 2 3 false none] := by
  decide

/-- **C10** (confirmed): both booking endpoints look up the venue with
`Venue.findOne({ eventId })`, a field `venueSchema` does not define, so under
match-nothing semantics the lookup returns nothing for every stored venue set,
and every booking request on an existing event — whatever its seats — is
rejected with the venue-not-found error, the layout untouched. -/
theorem C10_venue_lookup_never_matches :
    ∀ (venues : List Venue) (eventId : String) (layout : Layout) (uid : String)
      (attendeeId : Option String) (seatIds : List String),
      venueFindOne venues "eventId" eventId = none ∧
      putBookSeatsRoute (some layout) venues eventId uid seatIds =
        (.venueNotFound, some layout) ∧
      postBookingsRoute (some layout) venues eventId attendeeId seatIds =
        (.venueNotFound, some layout) := by
  intro venues eventId layout uid attendeeId seatIds
  have hget : ∀ v : Venue, v.getField "eventId" = none := fun v => rfl
  have hnone : venueFindOne venues "eventId" eventId = none := by
    apply List.find?_eq_none.mpr
    intro v hv
    simp [hget v]
  refine ⟨hnone, ?_, ?_⟩
  · simp only [putBookSeatsRoute]; rw [hnone]; rfl
  · simp only [postBookingsRoute]; rw [hnone]; rfl

/-- **C4** counterexample: the `bookSeats` endpoint performs none of the claimed
input validation — an empty `seatIds` list is accepted (success, not
`InvalidInput`), a list with a duplicated id is accepted, and an id that
matches no seat (`"GHOST"`) is silently ignored (success listing it among
`bookedSeats`, not `InvalidSeat`). -/
theorem C4_counterexample :
    putBookSeats (some [mkSeat "S1" 1 1 false none]) (some demoVenue) "u" [] =
      (.success [], some [mkSeat "S1" 1 1 false none]) ∧
    putBookSeats (some [mkSeat "S1" 1 1 false none]) (some demoVenue) "u"
        ["S1", "S1"] =
      (.success ["S1", "S1"], some [mkSeat "S1" 1 1 true (some "u")]) ∧
    putBookSeats (some [mkSeat "S1" 1 1 false none]) (some demoVenue) "u"
        ["GHOST", "S1"] =
      (.success ["GHOST", "S1"], some [mkSeat "S1" 1 1 true (some "u")]) := by
  decide

/-- **C4** (amended): no `InvalidInput`/`InvalidSeat` validation exists.
Whenever the event and venue are found, the capacity check passes and no
requested id names an occupied seat, the request succeeds — even when
`seatIds` is empty, has duplicates, or contains ids outside the layout — and
ids outside the layout are silently ignored: every seat whose id was not
requested is bit-for-bit unchanged, and no seat is added or removed. -/
theorem C4_amended (layout : Layout) (v : Venue) (uid : String)
    (seatIds : List String)
    (hcap : (seatsBookedByUser layout uid).length + seatIds.length ≤ 6)
    (hfree : ∀ sid ∈ seatIds, ∀ seat ∈ layout, seat.id = sid →
      seat.occupied = false) :
    (putBookSeats (some layout) (some v) uid seatIds).fst = .success seatIds ∧
    List.Forall₂ (fun a b => b.id = a.id ∧ (a.id ∉ seatIds → b = a)) layout
      ((putBookSeats (some layout) (some v) uid seatIds).snd.getD []) := by
  have hab := alreadyBookedSeats_eq_nil hfree
  have h6 : ¬ 6 < (seatsBookedByUser layout uid).length + seatIds.length :=
    Nat.not_lt.mpr hcap
  simp only [putBookSeats, hab, if_neg h6, List.length_nil, Nat.lt_irrefl,
    if_false, Option.getD_some]
  exact ⟨by simp,
    List.Forall₂.imp (fun a b h => ⟨h.1, h.2.2⟩)
      (commitSeats_forall₂ uid seatIds layout)⟩

theorem C4_witness :
    (putBookSeats (some [mkSeat "S1" 1 1 false none]) (some demoVenue) "u"
        ["GHOST"]).fst = .success ["GHOST"] :=
  (C4_amended [mkSeat "S1" 1 1 false none] demoVenue "u" ["GHOST"]
    (by decide) (by decide)).1

/-- **C5** counterexample: `POST /api/bookings` has no capacity check at all, so
an attendee already holding 6 occupied seats books a 7th one successfully —
refuting the claim that no operation ever leaves an attendee holding more than
6 occupied seats in one event. -/
theorem C5_counterexample :
    (postBookings (some capDemoLayout) (some demoVenue) (some "u") ["T7"]).fst =
      .success ["T7"] ∧
    (((postBookings (some capDemoLayout) (some demoVenue) (some "u")
          ["T7"]).snd.getD []).filter
        (fun s => s.occupied && s.attendee = some "u")).length = 7 := by decide

/-- **C5** (amended): the capacity rule holds on `PUT …/book-seats` only.
On a layout satisfying the occupancy invariant, for a request of `m` free valid
seats by an attendee holding `k` occupied seats, the request succeeds iff
`k + m ≤ 6`, and when `k + m > 6` it is rejected with the capacity error and
the layout is untouched.  (`POST /api/bookings` enforces no cap — see the
counterexample.) -/
theorem C5_amended (layout : Layout) (v : Venue) (uid : String)
    (seatIds : List String)
    (hinv : ∀ seat ∈ layout, seat.occupied = true ↔ seat.attendee.isSome = true)
    (hval : ∀ sid ∈ seatIds, ∃ seat ∈ layout, seat.id = sid)
    (hfree : ∀ sid ∈ seatIds, ∀ seat ∈ layout, seat.id = sid →
      seat.occupied = false) :
    ((putBookSeats (some layout) (some v) uid seatIds).fst = .success seatIds ↔
      (layout.filter (fun s => s.occupied && s.attendee = some uid)).length +
        seatIds.length ≤ 6) ∧
    (6 < (layout.filter (fun s => s.occupied && s.attendee = some uid)).length +
        seatIds.length →
      putBookSeats (some layout) (some v) uid seatIds =
        (.capacityExceeded, some layout)) := by
  have hk : seatsBookedByUser layout uid =
      layout.filter (fun s => s.occupied && s.attendee = some uid) := by
    apply List.filter_congr
    intro s hs
    by_cases ha : s.attendee = some uid
    · have hocc : s.occupied = true := (hinv s hs).mpr (by simp [ha])
      simp [ha, hocc]
    · simp [ha]
  have hab := alreadyBookedSeats_eq_nil hfree
  have hkl : (seatsBookedByUser layout uid).length =
      (layout.filter (fun s => s.occupied && s.attendee = some uid)).length := by
    rw [hk]
  by_cases h6 : 6 <
      (layout.filter (fun s => s.occupied && s.attendee = some uid)).length +
        seatIds.length
  · have hres : putBookSeats (some layout) (some v) uid seatIds =
        (.capacityExceeded, some layout) := by
      simp only [putBookSeats]
      rw [if_pos (by rw [hkl]; exact h6)]
    refine ⟨iff_of_false (by rw [hres]; simp) (by omega), fun _ => hres⟩
  · have hres : putBookSeats (some layout) (some v) uid seatIds =
        (.success seatIds, some (commitSeats uid seatIds layout)) := by
      simp only [putBookSeats]
      rw [if_neg (by rw [hkl]; exact h6), hab]
      simp
    refine ⟨iff_of_true (by rw [hres]) (by omega),
      fun hcontra => absurd hcontra h6⟩

theorem C5_witness :
    (putBookSeats (some fiveHeldLayout) (some demoVenue) "u" ["U6"]).fst =
      .success ["U6"] :=
  ((C5_amended fiveHeldLayout demoVenue "u" ["U6"] (by decide) (by decide)
    (by decide)).1).mpr (by decide)

/-- **C6** counterexample: the explicit seat-status override does *not* preserve
the structural invariant — sending `occupied: true` with no `attendeeId` for a
free seat leaves the seat occupied with no attendee reference set. -/
theorem C6_counterexample :
    seatInvariant [mkSeat "S1" 1 1 false none] ∧
    updateSeatStatus (some [mkSeat "S1" 1 1 false none]) "S1" (some true) none =
      (.updated, some [mkSeat "S1" 1 1 true none]) ∧
    ¬ seatInvariant [mkSeat "S1" 1 1 true none] := by decide

/-- **C6** (amended): every mutating operation (both booking commits and the
seat-status override) preserves seat-id uniqueness — none of them changes the
list of ids — and the `PUT …/book-seats` commit, as well as a
`POST /api/bookings` commit whose body does carry an `attendeeId`, preserves
the full invariant `occupied ⇔ attendee set`; but the seat-status override can
break that equivalence (see the counterexample), as can a `POST /api/bookings`
with no body `attendeeId`. -/
theorem C6_amended :
    (∀ (eventOpt : Option Layout) (venueOpt : Option Venue) (uid : String)
        (seatIds : List String),
        ((putBookSeats eventOpt venueOpt uid seatIds).snd.getD []).map Seat.id =
          (eventOpt.getD []).map Seat.id) ∧
    (∀ (eventOpt : Option Layout) (venueOpt : Option Venue)
        (attendeeId : Option String) (seatIds : List String),
        ((postBookings eventOpt venueOpt attendeeId seatIds).snd.getD []).map
            Seat.id = (eventOpt.getD []).map Seat.id) ∧
    (∀ (eventOpt : Option Layout) (seatId : String) (occupied : Option Bool)
        (attendeeId : Option String),
        ((updateSeatStatus eventOpt seatId occupied attendeeId).snd.getD []).map
            Seat.id = (eventOpt.getD []).map Seat.id) ∧
    (∀ (layout : Layout) (v : Venue) (uid : String) (seatIds : List String),
        seatInvariant layout →
        seatInvariant ((putBookSeats (some layout) (some v) uid seatIds).snd.getD [])) ∧
    (∀ (layout : Layout) (v : Venue) (a : String) (seatIds : List String),
        seatInvariant layout →
        seatInvariant ((postBookings (some layout) (some v) (some a) seatIds).snd.getD [])) := by
  refine ⟨?_, ?_, ?_, ?_, ?_⟩
  · intro eventOpt venueOpt uid seatIds
    cases eventOpt with
    | none => rfl
    | some layout =>
      cases venueOpt with
      | none => rfl
      | some v =>
        simp only [putBookSeats]
        split_ifs <;> simp [commitSeats_map_id]
  · intro eventOpt venueOpt attendeeId seatIds
    cases eventOpt with
    | none => rfl
    | some layout =>
      cases venueOpt with
      | none => rfl
      | some v =>
        simp only [postBookings]
        split_ifs with h
        · simp
        · simp only [Option.getD_some, List.map_map, Option.getD_some]
          apply List.map_congr_left
          intro s _
          by_cases hc : s.id ∈ seatIds <;> simp [hc]
  · intro eventOpt seatId occupied attendeeId
    cases eventOpt with
    | none => rfl
    | some layout =>
      simp only [updateSeatStatus]
      split_ifs with h
      · simp only [Option.getD_some]
        exact updateFirst_map_id (fun seat => seat.id = seatId)
          (overrideSeat occupied attendeeId) (fun s => rfl) layout
      · rfl
  · intro layout v uid seatIds hinv
    rcases hinv with ⟨hnodup, hpt⟩
    simp only [putBookSeats]
    split_ifs with h1 h2
    · exact ⟨hnodup, hpt⟩
    · exact ⟨hnodup, hpt⟩
    · refine ⟨?_, ?_⟩
      · simpa only [Option.getD_some, commitSeats_map_id] using hnodup
      · intro seat hseat
        simp only [Option.getD_some] at hseat
        rcases mem_commitSeats uid seatIds hseat with h | ⟨t, ht, rfl⟩
        · exact hpt seat h
        · simp
  · intro layout v a seatIds hinv
    rcases hinv with ⟨hnodup, hpt⟩
    simp only [postBookings]
    split_ifs with h1
    · exact ⟨hnodup, hpt⟩
    · refine ⟨?_, ?_⟩
      · simp only [Option.getD_some, List.map_map]
        have : layout.map (Seat.id ∘ fun seat =>
            if seatIds.contains seat.id then
              { seat with occupied := true, attendee := some a }
            else seat) = layout.map Seat.id := by
          apply List.map_congr_left
          intro s _
          by_cases hc : s.id ∈ seatIds <;> simp [hc]
        rw [this]
        exact hnodup
      · intro seat hseat
        simp only [Option.getD_some, List.mem_map] at hseat
        obtain ⟨t, ht, rfl⟩ := hseat
        by_cases hc : t.id ∈ seatIds <;> simp [hc, hpt t ht]

theorem C6_witness :
    seatInvariant
      ((putBookSeats (some [mkSeat "S1" 1 1 false none]) (some demoVenue) "u"
          ["S1"]).snd.getD []) :=
  C6_amended.2.2.2.1 [mkSeat "S1" 1 1 false none] demoVenue "u" ["S1"]
    (by decide)

/-- **C8** counterexample: repeating an already-succeeded 4-seat booking is
rejected by the *capacity* check (the attendee now holds 4 seats and
`4 + 4 > 6`), not with `Conflict` as the claim states — though the state is
indeed unchanged. -/
theorem C8_counterexample :
    (putBookSeats (some fourFreeLayout) (some demoVenue) "u"
        ["R1", "R2", "R3", "R4"]).fst = .success ["R1", "R2", "R3", "R4"] ∧
    putBookSeats
        ((putBookSeats (some fourFreeLayout) (some demoVenue) "u"
          ["R1", "R2", "R3", "R4"]).snd)
        (some demoVenue) "u" ["R1", "R2", "R3", "R4"] =
      (.capacityExceeded,
       (putBookSeats (some fourFreeLayout) (some demoVenue) "u"
         ["R1", "R2", "R3", "R4"]).snd) := by decide

/-- **C8** (amended): repeating an already-succeeded nonempty booking request
(same event, same attendee, same seat ids) is always rejected — with
`Conflict` listing the requested ids when the repeat also passes the capacity
check, and with the capacity error otherwise — and the repeat never mutates
the layout, so occupancy is never double-counted. -/
theorem C8_amended (layout L1 : Layout) (v : Venue) (uid : String)
    (seatIds : List String)
    (hne : seatIds ≠ [])
    (hval : ∀ sid ∈ seatIds, ∃ seat ∈ layout, seat.id = sid)
    (hsucc : putBookSeats (some layout) (some v) uid seatIds =
      (.success seatIds, some L1)) :
    isSuccess (putBookSeats (some L1) (some v) uid seatIds).fst = false ∧
    (putBookSeats (some L1) (some v) uid seatIds).snd = some L1 ∧
    ((putBookSeats (some L1) (some v) uid seatIds).fst = .capacityExceeded ∨
     (putBookSeats (some L1) (some v) uid seatIds).fst = .conflict seatIds) := by
  have hL1 : L1 = commitSeats uid seatIds layout := by
    simp only [putBookSeats] at hsucc
    split_ifs at hsucc with h1 h2
    · exact absurd (congrArg Prod.fst hsucc) (by simp)
    · exact absurd (congrArg Prod.fst hsucc) (by simp)
    · have := congrArg Prod.snd hsucc
      simp only at this
      exact (Option.some.inj this).symm
  have hocc : ∀ sid ∈ seatIds, ∃ s ∈ L1, s.id = sid ∧ s.occupied = true := by
    intro sid h
    rw [hL1]
    exact commitSeats_occupied uid seatIds sid h layout (hval sid h)
  have habL1 : alreadyBookedSeats L1 seatIds = seatIds := by
    apply List.filter_eq_self.mpr
    intro sid hsid
    obtain ⟨s, hs, hid, hso⟩ := hocc sid hsid
    exact List.find?_isSome.mpr ⟨s, hs, by simp [hid, hso]⟩
  by_cases h6 : 6 < (seatsBookedByUser L1 uid).length + seatIds.length
  · have hres : putBookSeats (some L1) (some v) uid seatIds =
        (.capacityExceeded, some L1) := by
      simp only [putBookSeats]
      rw [if_pos h6]
    rw [hres]
    exact ⟨rfl, rfl, .inl rfl⟩
  · have hres : putBookSeats (some L1) (some v) uid seatIds =
        (.conflict seatIds, some L1) := by
      simp only [putBookSeats]
      rw [if_neg h6, habL1, if_pos (List.length_pos.mpr hne)]
    rw [hres]
    exact ⟨rfl, rfl, .inr rfl⟩

theorem C8_witness :
    isSuccess (putBookSeats (some [mkSeat "W1" 1 1 true (some "u")])
        (some demoVenue) "u" ["W1"]).fst = false :=
  (C8_amended [mkSeat "W1" 1 1 false none] [mkSeat "W1" 1 1 true (some "u")]
    demoVenue "u" ["W1"] (by decide) (by decide) (by decide)).1

/-! ## Seat-id uniqueness: decimal rendering facts -/

theorem decCharsCore_fuel (n : Nat) : ∀ f₁ f₂ : Nat, n < f₁ → n < f₂ →
    decCharsCore f₁ n = decCharsCore f₂ n := by
  induction n using Nat.strong_induction_on with
  | _ n ih =>
    intro f₁ f₂ h₁ h₂
    cases f₁ with
    | zero => omega
    | succ f₁' =>
      cases f₂ with
      | zero => omega
      | succ f₂' =>
        simp only [decCharsCore]
        by_cases h10 : n < 10
        · rw [if_pos h10, if_pos h10]
        · rw [if_neg h10, if_neg h10,
            ih (n / 10) (Nat.div_lt_self (by omega) (by omega)) f₁' f₂'
              (by omega) (by omega)]

theorem decChars_eq_low {n : Nat} (h : n < 10) : decChars n = [digitChar n] := by
  simp [decChars, decCharsCore, h]

theorem decChars_eq_high {n : Nat} (h : 10 ≤ n) :
    decChars n = decChars (n / 10) ++ [digitChar (n % 10)] := by
  have h10 : ¬ n < 10 := Nat.not_lt.mpr h
  have hdiv : n / 10 < n := Nat.div_lt_self (by omega) (by omega)
  have hstep : decCharsCore (n + 1) n =
      decCharsCore n (n / 10) ++ [digitChar (n % 10)] := by
    simp only [decCharsCore, if_neg h10]
  rw [decChars, hstep,
    decCharsCore_fuel (n / 10) n (n / 10 + 1) hdiv (Nat.lt_succ_self _)]
  rfl

theorem decChars_ne_nil (n : Nat) : decChars n ≠ [] := by
  by_cases h : n < 10
  · rw [decChars_eq_low h]; simp
  · rw [decChars_eq_high (Nat.le_of_not_lt h)]; simp

theorem digitChar_toNat : ∀ d < 10, (digitChar d).toNat = 48 + d := by decide

theorem decChars_digits (n : Nat) : ∀ c ∈ decChars n,
    48 ≤ c.toNat ∧ c.toNat ≤ 57 := by
  induction n using Nat.strong_induction_on with
  | _ n ih =>
    by_cases h : n < 10
    · rw [decChars_eq_low h]
      intro c hc
      rw [List.mem_singleton] at hc
      subst hc
      rw [digitChar_toNat n h]
      omega
    · have h' : 10 ≤ n := Nat.le_of_not_lt h
      rw [decChars_eq_high h']
      intro c hc
      rcases List.mem_append.mp hc with h1 | h2
      · exact ih (n / 10) (Nat.div_lt_self (by omega) (by omega)) c h1
      · rw [List.mem_singleton] at h2
        subst h2
        have hm : n % 10 < 10 := Nat.mod_lt _ (by omega)
        rw [digitChar_toNat _ hm]
        omega

theorem digitChar_inj {a b : Nat} (ha : a < 10) (hb : b < 10)
    (h : digitChar a = digitChar b) : a = b := by
  have e := congrArg Char.toNat h
  rw [digitChar_toNat a ha, digitChar_toNat b hb] at e
  omega

theorem decChars_inj : ∀ m n : Nat, decChars m = decChars n → m = n := by
  intro m
  induction m using Nat.strong_induction_on with
  | _ m ih =>
    intro n h
    by_cases hm : m < 10 <;> by_cases hn : n < 10
    · rw [decChars_eq_low hm, decChars_eq_low hn] at h
      exact digitChar_inj hm hn (List.cons.inj h).1
    · rw [decChars_eq_low hm, decChars_eq_high (Nat.le_of_not_lt hn)] at h
      have hlen := congrArg List.length h
      simp only [List.length_singleton, List.length_append] at hlen
      have hnil : decChars (n / 10) = [] :=
        List.length_eq_zero.mp (by omega)
      exact absurd hnil (decChars_ne_nil _)
    · rw [decChars_eq_high (Nat.le_of_not_lt hm), decChars_eq_low hn] at h
      have hlen := congrArg List.length h
      simp only [List.length_singleton, List.length_append] at hlen
      have hnil : decChars (m / 10) = [] :=
        List.length_eq_zero.mp (by omega)
      exact absurd hnil (decChars_ne_nil _)
    · rw [decChars_eq_high (Nat.le_of_not_lt hm),
        decChars_eq_high (Nat.le_of_not_lt hn)] at h
      obtain ⟨h1, h2⟩ := List.append_inj' h (by simp)
      have hdiv : m / 10 = n / 10 :=
        ih (m / 10) (Nat.div_lt_self (by omega) (by omega)) _ h1
      have hmod : m % 10 = n % 10 :=
        digitChar_inj (Nat.mod_lt _ (by omega)) (Nat.mod_lt _ (by omega))
          (List.cons.inj h2).1
      omega

/-! ## Seat-id uniqueness: splitting an id at its final dash -/

theorem append_dashfree_inj :
    ∀ (a b : List Char) {t u : List Char}, '-' ∉ t → '-' ∉ u →
      a ++ '-' :: t = b ++ '-' :: u → a = b ∧ t = u := by
  intro a
  induction a with
  | nil =>
    intro b t u ht hu h
    cases b with
    | nil =>
      rw [List.nil_append, List.nil_append] at h
      exact ⟨rfl, (List.cons.inj h).2⟩
    | cons x b' =>
      rw [List.nil_append, List.cons_append] at h
      obtain ⟨-, hrest⟩ := List.cons.inj h
      exact absurd (hrest ▸ List.mem_append_right b' (List.mem_cons_self _ _)) ht
  | cons x a' iha =>
    intro b t u ht hu h
    cases b with
    | nil =>
      rw [List.nil_append, List.cons_append] at h
      obtain ⟨-, hrest⟩ := List.cons.inj h.symm
      exact absurd (hrest ▸ List.mem_append_right a' (List.mem_cons_self _ _)) hu
    | cons y b' =>
      rw [List.cons_append, List.cons_append] at h
      obtain ⟨hxy, hrest⟩ := List.cons.inj h
      obtain ⟨hab, htu⟩ := iha b' ht hu hrest
      exact ⟨by rw [hxy, hab], htu⟩

theorem seatId_data (name : String) (r c : Nat) :
    (seatId name r c).data = name.data ++ '-' :: rowLabelChar r :: decChars c := by
  simp [seatId, String.data_append]

theorem rowLabelChar_toNat : ∀ r < 27, (rowLabelChar r).toNat = 64 + r := by
  decide

theorem rowLabelChar_inj {r₁ r₂ : Nat} (h₁ : r₁ < 27) (h₂ : r₂ < 27)
    (h : rowLabelChar r₁ = rowLabelChar r₂) : r₁ = r₂ := by
  have e := congrArg Char.toNat h
  rw [rowLabelChar_toNat r₁ h₁, rowLabelChar_toNat r₂ h₂] at e
  omega

theorem dash_not_mem_tail {r c : Nat} (hr : r < 27) :
    '-' ∉ rowLabelChar r :: decChars c := by
  intro h
  have h45 : ('-').toNat = 45 := rfl
  rcases List.mem_cons.mp h with h1 | h2
  · have e := congrArg Char.toNat h1
    rw [rowLabelChar_toNat r hr, h45] at e
    omega
  · have := decChars_digits c '-' h2
    omega

theorem seatId_inj {n₁ n₂ : String} {r₁ r₂ c₁ c₂ : Nat}
    (hr₁ : r₁ < 27) (hr₂ : r₂ < 27)
    (h : seatId n₁ r₁ c₁ = seatId n₂ r₂ c₂) : n₁ = n₂ ∧ r₁ = r₂ ∧ c₁ = c₂ := by
  have hd := congrArg String.data h
  rw [seatId_data, seatId_data] at hd
  obtain ⟨hn, htail⟩ :=
    append_dashfree_inj _ _ (dash_not_mem_tail hr₁) (dash_not_mem_tail hr₂) hd
  obtain ⟨hrl, hdec⟩ := List.cons.inj htail
  exact ⟨String.ext hn, rowLabelChar_inj hr₁ hr₂ hrl, decChars_inj _ _ hdec⟩

/-! ## Seat-id uniqueness of the generated layout -/

theorem generateSeats_map_id (name : String) (rows spr : Nat) :
    (generateSeats name rows spr).map Seat.id =
      (List.range rows).flatMap (fun r =>
        (List.range spr).map (fun s0 => seatId name (r + 1) (s0 + 1))) := by
  simp only [generateSeats, List.map_flatMap, List.map_map]
  rfl

theorem generateSeats_length (name : String) (rows spr : Nat) :
    (generateSeats name rows spr).length = rows * spr := by
  simp only [generateSeats, List.length_flatMap, List.map_map]
  have : (List.range rows).map
      (List.length ∘ fun r =>
        (List.range spr).map (fun s0 =>
          ({ id := seatId name (r + 1) (s0 + 1), row := r + 1, column := s0 + 1
             type := jsToLowerCase name, occupied := false,
             attendee := none } : Seat))) =
      (List.range rows).map (fun _ => spr) := by
    apply List.map_congr_left
    intro r _
    simp
  rw [this, List.map_const', List.sum_replicate, List.length_range, smul_eq_mul]

theorem mem_generateSeats_ids {name : String} {rows spr : Nat} {x : String}
    (hx : x ∈ (generateSeats name rows spr).map Seat.id) :
    ∃ r c, r < rows ∧ c < spr ∧ x = seatId name (r + 1) (c + 1) := by
  rw [generateSeats_map_id] at hx
  rw [List.mem_flatMap] at hx
  obtain ⟨r, hr, hx⟩ := hx
  rw [List.mem_map] at hx
  obtain ⟨c, hc, rfl⟩ := hx
  exact ⟨r, c, List.mem_range.mp hr, List.mem_range.mp hc, rfl⟩

theorem generateSeats_ids_nodup (name : String) (rows spr : Nat)
    (hrows : rows ≤ 26) : ((generateSeats name rows spr).map Seat.id).Nodup := by
  rw [generateSeats_map_id]
  apply List.nodup_flatMap.mpr
  constructor
  · intro r hr
    have hr27 : r + 1 < 27 := by
      have := List.mem_range.mp hr
      omega
    refine List.Nodup.map_on ?_ (List.nodup_range spr)
    intro x _ y _ hxy
    have := (seatId_inj hr27 hr27 hxy).2.2
    omega
  · refine List.Pairwise.imp_of_mem ?_ (List.nodup_range rows)
    intro r₁ r₂ h₁ h₂ hne x hx₁ hx₂
    rw [List.mem_map] at hx₁ hx₂
    obtain ⟨c₁, -, rfl⟩ := hx₁
    obtain ⟨c₂, -, he⟩ := hx₂
    have hr₁ : r₁ + 1 < 27 := by have := List.mem_range.mp h₁; omega
    have hr₂ : r₂ + 1 < 27 := by have := List.mem_range.mp h₂; omega
    have := (seatId_inj hr₂ hr₁ he).2.1
    omega

theorem buildSeatingLayout_eq_flatMap (sections : List SectionSpec) :
    buildSeatingLayout sections = sections.flatMap (fun sec =>
      generateSeats sec.sectionName sec.rows sec.seatsPerRow) := by
  have h : ∀ (ss : List SectionSpec) (acc : Layout),
      ss.foldl (fun a sec =>
        a ++ generateSeats sec.sectionName sec.rows sec.seatsPerRow) acc =
      acc ++ ss.flatMap (fun sec =>
        generateSeats sec.sectionName sec.rows sec.seatsPerRow) := by
    intro ss
    induction ss with
    | nil => intro acc; simp
    | cons sec rest ih => intro acc; simp [ih, List.append_assoc]
  simpa [buildSeatingLayout] using h sections []

/-- **C7** counterexample: a spec list with two identically-named sections is
not rejected anywhere — `POST /api/events` simply concatenates the generated
sections — and it produces a stored layout with duplicate seat ids
(`Gold-A1` twice), violating the claimed uniqueness/rejection contract. -/
theorem C7_counterexample :
    (buildSeatingLayout
        [⟨"Gold", 1, 1⟩, ⟨"Gold", 1, 1⟩]).map Seat.id =
      ["Gold-A1", "Gold-A1"] ∧
    ¬ ((buildSeatingLayout
        [⟨"Gold", 1, 1⟩, ⟨"Gold", 1, 1⟩]).map Seat.id).Nodup := by decide

/-- **C7** (amended): for any ordered list of section specs the generated
layout has exactly `Σ(rows × seatsPerRow)` seats, and the generated seat ids
are unique within the event **provided** the section names are pairwise
distinct (rows within the A–Z labelling range); nothing rejects a collision —
a list repeating a section name yields duplicate ids (see counterexample). -/
theorem C7_amended (sections : List SectionSpec)
    (hnames : (sections.map SectionSpec.sectionName).Nodup)
    (hrows : ∀ sec ∈ sections, sec.rows ≤ 26) :
    (buildSeatingLayout sections).length =
      (sections.map (fun sec => sec.rows * sec.seatsPerRow)).sum ∧
    ((buildSeatingLayout sections).map Seat.id).Nodup := by
  constructor
  · rw [buildSeatingLayout_eq_flatMap, List.length_flatMap]
    congr 1
    apply List.map_congr_left
    intro sec _
    simp [generateSeats_length]
  · rw [buildSeatingLayout_eq_flatMap, List.map_flatMap]
    apply List.nodup_flatMap.mpr
    constructor
    · intro sec hsec
      exact generateSeats_ids_nodup _ _ _ (hrows sec hsec)
    · have hpw : sections.Pairwise
          (fun a b => a.sectionName ≠ b.sectionName) :=
        List.pairwise_map.mp hnames
      refine List.Pairwise.imp_of_mem ?_ hpw
      intro sec₁ sec₂ h₁ h₂ hne x hx₁ hx₂
      obtain ⟨r₁, c₁, hr₁, -, rfl⟩ := mem_generateSeats_ids hx₁
      obtain ⟨r₂, c₂, hr₂, -, he⟩ := mem_generateSeats_ids hx₂
      have hb₁ : r₁ + 1 < 27 := by have := hrows sec₁ h₁; omega
      have hb₂ : r₂ + 1 < 27 := by have := hrows sec₂ h₂; omega
      exact hne (seatId_inj hb₁ hb₂ he).1

theorem C7_witness :
    (buildSeatingLayout [⟨"Gold", 2, 3⟩, ⟨"Silver", 1, 2⟩]).length = 8 ∧
    ((buildSeatingLayout [⟨"Gold", 2, 3⟩, ⟨"Silver", 1, 2⟩]).map Seat.id).Nodup := by
  have h := C7_amended [⟨"Gold", 2, 3⟩, ⟨"Silver", 1, 2⟩] (by decide) (by decide)
  exact ⟨by rw [h.1]; decide, h.2⟩

end Crowdease
